import Mathlib

/-!
Shallow embedding of the dynamic-array container `vector_t<T>` from
`src/include/vector.hpp`, together with its observable element-lifetime
event traces (the quantity the instrumentation type `lt::observer_t` in
`src/src/vector.cpp` counts).

Modelling conventions:
* Each call to the allocator returns a fresh buffer identity; a counter
  `ctr : Nat` is threaded through the operations and names the buffers.
* A buffer's contents are a `List (Option α)`: `some v` is a live slot
  holding value `v`, `none` is a slot with no live value.
* `_data` is modelled as `Option Nat` (the id of the owned buffer, or
  `none` for a null pointer) together with the owned buffer's contents.
* Every element-lifetime event (`std::construct_at`, `std::destroy_at`,
  `delete`) is recorded in a trace, tagged with the buffer id and slot.
-/

/-- Observable element-lifetime events.  The buffer field is the identity
of the buffer the slot belongs to (`none` models operating through a null
pointer).  `asgCopy`/`asgMove` are element assignments; the source never
emits them, which is what makes "zero assignments" claims contentful. -/
inductive Ev where
  | conDefault (buffer : Option Nat) (slot : Nat)
  | conCopy (buffer : Option Nat) (slot : Nat)
  | conMove (buffer : Option Nat) (slot : Nat)
  | conArg (buffer : Option Nat) (slot : Nat)
  | destroy (buffer : Option Nat) (slot : Nat)
  | asgCopy
  | asgMove
  deriving DecidableEq

/-- Contents of one allocated buffer: one entry per allocated slot. -/
abbrev Slots (α : Type) := List (Option α)

variable {α : Type}

/-- Reading a live value out of a slot (the value `*(_data + i)`); reading
a dead slot is undefined behaviour in the source and yields `default`. -/
def readSlot [Inhabited α] (b : Slots α) (i : Nat) : α :=
  (b.getD i none).getD default

/-- The loop `for i in [0,k): construct_at(dst + i, move(src[i]))`
(move constructions into a destination buffer, ascending). -/
def moveLoop [Inhabited α] (src dst : Slots α) : Nat → Slots α
  | 0 => dst
  | k + 1 => (moveLoop src dst k).set k (some (readSlot src k))

/-- The loop `for i in [0,k): construct_at(dst + i, src[i])`
(copy constructions into a destination buffer, ascending). -/
def copyLoop [Inhabited α] (src dst : Slots α) : Nat → Slots α
  | 0 => dst
  | k + 1 => (copyLoop src dst k).set k (some (readSlot src k))

/-- The loop `for i in [a, a+m): construct_at(dst + i)` (default
constructions, ascending). -/
def defaultLoop [Inhabited α] (dst : Slots α) (a : Nat) : Nat → Slots α
  | 0 => dst
  | m + 1 => (defaultLoop dst a m).set (a + m) (some default)

/-- The loop `destroy(dst, dst + k)` on the buffer contents: slots
`[0, k)` lose their values (ascending, as in `vector_t::destroy`). -/
def destroyLoop (dst : Slots α) : Nat → Slots α
  | 0 => dst
  | k + 1 => (destroyLoop dst k).set k none

/-- Trace of `k` move-construction events into buffer `id`, slots
`0, 1, ..., k-1` in this order. -/
def conMoveEvents (id : Option Nat) : Nat → List Ev
  | 0 => []
  | k + 1 => conMoveEvents id k ++ [Ev.conMove id k]

/-- Trace of `k` copy-construction events into buffer `id`, slots
`0, 1, ..., k-1` in this order. -/
def conCopyEvents (id : Option Nat) : Nat → List Ev
  | 0 => []
  | k + 1 => conCopyEvents id k ++ [Ev.conCopy id k]

/-- Trace of `m` default-construction events into buffer `id`, slots
`a, a+1, ..., a+m-1` in this order. -/
def conDefaultEvents (id : Option Nat) (a : Nat) : Nat → List Ev
  | 0 => []
  | m + 1 => conDefaultEvents id a m ++ [Ev.conDefault id (a + m)]

/-- Trace of `k` destruction events on buffer `id`, slots
`0, 1, ..., k-1` in this order (as emitted by `destroy(p, p + k)`). -/
def destroyEvents (id : Option Nat) : Nat → List Ev
  | 0 => []
  | k + 1 => destroyEvents id k ++ [Ev.destroy id k]

/-- The container state: `data` is the `_data` pointer (id of the owned
buffer, `none` for null), `buf` the owned buffer's contents (`[]` when
`data = none`), `size` is `_size`, `capacity` is `_capacity`. -/
structure vector_t (α : Type) where
  data : Option Nat
  buf : Slots α
  size : Nat
  capacity : Nat
  deriving DecidableEq

/-- `vector_t()` : the default constructor; empty vector, no buffer. -/
def vector_t.empty : vector_t α := ⟨none, [], 0, 0⟩

/-- `reserve(new_capacity)`: always allocates a fresh buffer of
`new_capacity` slots; if `_data` is non-null and `_size > 0`, move-constructs
the `_size` live elements into it (ascending) and then destroys the `_size`
source elements (ascending); finally sets `_capacity = new_capacity` and
`_data = buffer`.  `_size` is never changed. -/
def reserve [Inhabited α] (st : vector_t α) (new_capacity : Nat) (ctr : Nat) :
    vector_t α × Nat × List Ev :=
  match st.data with
  | some old_id =>
    if 0 < st.size then
      (⟨some ctr, moveLoop st.buf (List.replicate new_capacity none) st.size,
        st.size, new_capacity⟩, ctr + 1,
        conMoveEvents (some ctr) st.size ++ destroyEvents (some old_id) st.size)
    else
      (⟨some ctr, List.replicate new_capacity none, st.size, new_capacity⟩,
        ctr + 1, [])
  | none =>
    (⟨some ctr, List.replicate new_capacity none, st.size, new_capacity⟩,
      ctr + 1, [])

/-- The second block of `resize` (`if (_size > 0) { ... }`), run on the
state left by the first block.  Growing: fresh buffer, move-construct the
`_size` live elements, destroy the sources, default-construct slots
`[_size, new_size)`, then `_size = new_size; _capacity = _size`.
Shrinking: `destroy(_data, _data + _size)` — the source destroys ALL
`_size` elements, not just `[new_size, _size)` — then
`_capacity = new_size; _size = new_size` with the buffer kept. -/
def resizeTail [Inhabited α] (s1 : vector_t α × Nat × List Ev) (new_size : Nat) :
    vector_t α × Nat × List Ev :=
  if 0 < s1.1.size then
    if s1.1.size < new_size then
      (⟨some s1.2.1,
        defaultLoop (moveLoop s1.1.buf (List.replicate new_size none) s1.1.size)
          s1.1.size (new_size - s1.1.size),
        new_size, new_size⟩,
       s1.2.1 + 1,
       s1.2.2 ++ conMoveEvents (some s1.2.1) s1.1.size
              ++ destroyEvents s1.1.data s1.1.size
              ++ conDefaultEvents (some s1.2.1) s1.1.size (new_size - s1.1.size))
    else if new_size < s1.1.size then
      (⟨s1.1.data, destroyLoop s1.1.buf s1.1.size, new_size, new_size⟩,
       s1.2.1, s1.2.2 ++ destroyEvents s1.1.data s1.1.size)
    else s1
  else s1

/-- `resize(new_size)`: returns immediately when `_size == new_size`;
otherwise, when `_size == 0`, allocates `new_size` slots into `_data`
(without freeing any previous buffer), default-constructs all of them and
sets `_size = _capacity = new_size`; then the `_size > 0` block
(`resizeTail`) runs on the resulting state. -/
def resize [Inhabited α] (st : vector_t α) (new_size : Nat) (ctr : Nat) :
    vector_t α × Nat × List Ev :=
  if st.size = new_size then (st, ctr, [])
  else if st.size = 0 then
    resizeTail
      (⟨some ctr, defaultLoop (List.replicate new_size none) 0 new_size,
        new_size, new_size⟩, ctr + 1, conDefaultEvents (some ctr) 0 new_size)
      new_size
  else resizeTail (st, ctr, []) new_size

/-- `vector_t(std::size_t size)`: delegates to the default constructor and
then calls `resize(size)`. -/
def mk_sized [Inhabited α] (n : Nat) (ctr : Nat) : vector_t α × Nat × List Ev :=
  resize (vector_t.empty : vector_t α) n ctr

/-- `std::construct_at(_data + _size)` on an intermediate
(state, counter, trace) triple: default-constructs slot `_size`. -/
def construct_default_at_end [Inhabited α] (r : vector_t α × Nat × List Ev) :
    vector_t α × Nat × List Ev :=
  ({ r.1 with buf := r.1.buf.set r.1.size (some default) }, r.2.1,
    r.2.2 ++ [Ev.conDefault r.1.data r.1.size])

/-- `std::construct_at(_data + _size, v)` on an intermediate
(state, counter, trace) triple: constructs slot `_size` from argument `v`. -/
def construct_arg_at_end (v : α) (r : vector_t α × Nat × List Ev) :
    vector_t α × Nat × List Ev :=
  ({ r.1 with buf := r.1.buf.set r.1.size (some v) }, r.2.1,
    r.2.2 ++ [Ev.conArg r.1.data r.1.size])

/-- Prefixes an already-accumulated trace onto an operation's result. -/
def prependTrace (tr : List Ev) (r : vector_t α × Nat × List Ev) :
    vector_t α × Nat × List Ev :=
  (r.1, r.2.1, tr ++ r.2.2)

/-- `emplace_back()` with zero arguments.  Follows the source line by
line: if `_capacity == 0`, `reserve(1 << 4)` then `construct_at(_data + _size)`;
then `if (_size < _capacity) construct_at(_data + _size);` and
`if (_size == _capacity && _capacity > 0) { reserve(_capacity << 1);
construct_at(_data + _size); }`; finally `_size++`.  Note that when the
first branch runs, the `_size < _capacity` branch runs as well, so the end
slot is constructed twice. -/
def emplace_back0 [Inhabited α] (st : vector_t α) (ctr : Nat) :
    vector_t α × Nat × List Ev :=
  let s1 := if st.capacity = 0 then construct_default_at_end (reserve st 16 ctr)
            else (st, ctr, ([] : List Ev))
  let s2 := if s1.1.size < s1.1.capacity then construct_default_at_end s1 else s1
  let s3 := if s2.1.size = s2.1.capacity ∧ 0 < s2.1.capacity then
      construct_default_at_end
        (prependTrace s2.2.2 (reserve s2.1 (s2.1.capacity * 2) s2.2.1))
    else s2
  ({ s3.1 with size := s3.1.size + 1 }, s3.2.1, s3.2.2)

/-- `emplace_back(v)` with one argument.  Same control flow as
`emplace_back0`; the branch for `_capacity == 0` still performs a
default construction first, then the argument branch constructs the end
slot from `v`. -/
def emplace_back1 [Inhabited α] (st : vector_t α) (v : α) (ctr : Nat) :
    vector_t α × Nat × List Ev :=
  let s1 := if st.capacity = 0 then construct_default_at_end (reserve st 16 ctr)
            else (st, ctr, ([] : List Ev))
  let s2 := if s1.1.size < s1.1.capacity then construct_arg_at_end v s1 else s1
  let s3 := if s2.1.size = s2.1.capacity ∧ 0 < s2.1.capacity then
      construct_arg_at_end v
        (prependTrace s2.2.2 (reserve s2.1 (s2.1.capacity * 2) s2.2.1))
    else s2
  ({ s3.1 with size := s3.1.size + 1 }, s3.2.1, s3.2.2)

/-- `vector_t(vector_t const & other)`: delegates to the default
constructor (so `_data` is null and the `if (_data) delete _data;` line is
a no-op), then `reserve(other.size())` and a loop copy-constructing
`other.size()` elements into slots `[0, other.size())`.  `_size` is never
set, so it stays `0`. -/
def copy_ctor [Inhabited α] (other : vector_t α) (ctr : Nat) :
    vector_t α × Nat × List Ev :=
  let r := reserve (vector_t.empty : vector_t α) other.size ctr
  (⟨r.1.data, copyLoop other.buf r.1.buf other.size, r.1.size, r.1.capacity⟩,
    r.2.1, r.2.2 ++ conCopyEvents r.1.data other.size)

/-- `operator=(vector_t const & other)`: `reserve(other.size())` on the
destination (which relocates the destination's own live elements), then a
loop copy-constructing `other.size()` elements into slots
`[0, other.size())`.  The destination's `_size` is never updated. -/
def copy_assign [Inhabited α] (dst other : vector_t α) (ctr : Nat) :
    vector_t α × Nat × List Ev :=
  let r := reserve dst other.size ctr
  (⟨r.1.data, copyLoop other.buf r.1.buf other.size, r.1.size, r.1.capacity⟩,
    r.2.1, r.2.2 ++ conCopyEvents r.1.data other.size)

/-- `vector_t(vector_t && other)`: only `_data(other._data)` and
`other._data = nullptr` run.  The destination's `_size` and `_capacity`
are left uninitialized (modelled by the arbitrary `junk_size` /
`junk_capacity`), and the source's `_size` and `_capacity` are not reset.
Returns (destination, source afterwards, trace). -/
def move_ctor (other : vector_t α) (junk_size junk_capacity : Nat) :
    vector_t α × vector_t α × List Ev :=
  (⟨other.data, other.buf, junk_size, junk_capacity⟩,
   ⟨none, [], other.size, other.capacity⟩, [])

/-- `operator=(vector_t && other)`: `if (_data) delete _data;` (a `delete`
of the first element: one destruction of slot `0` of the destination's
buffer), then `_data = other._data; other._data = nullptr;`.  Neither
`_size` nor `_capacity` is transferred or reset on either side.
Returns (destination, source afterwards, trace). -/
def move_assign (dst other : vector_t α) : vector_t α × vector_t α × List Ev :=
  (⟨other.data, other.buf, dst.size, dst.capacity⟩,
   ⟨none, [], other.size, other.capacity⟩,
   match dst.data with
   | some id => [Ev.destroy (some id) 0]
   | none => [])

/-- `~vector_t()`: `destroy(_data, _data + _size)` then deallocation.
Returns the element-lifetime trace of the destructor. -/
def dtor (st : vector_t α) : List Ev :=
  destroyEvents st.data st.size

/-- Number of default-construction events in a trace. -/
def countDefault (tr : List Ev) : Nat :=
  (tr.filter fun e => match e with | .conDefault _ _ => true | _ => false).length

/-- Number of copy-construction events in a trace. -/
def countCopy (tr : List Ev) : Nat :=
  (tr.filter fun e => match e with | .conCopy _ _ => true | _ => false).length

/-- Number of move-construction events in a trace. -/
def countMove (tr : List Ev) : Nat :=
  (tr.filter fun e => match e with | .conMove _ _ => true | _ => false).length

/-- Number of forwarded-argument construction events in a trace. -/
def countArg (tr : List Ev) : Nat :=
  (tr.filter fun e => match e with | .conArg _ _ => true | _ => false).length

/-- Number of destruction events in a trace. -/
def countDestroy (tr : List Ev) : Nat :=
  (tr.filter fun e => match e with | .destroy _ _ => true | _ => false).length

/-- Number of element-assignment events in a trace. -/
def countAssign (tr : List Ev) : Nat :=
  (tr.filter fun e => match e with | .asgCopy => true | .asgMove => true
                                   | _ => false).length

/-- The values held in the live range `[0, size)`, by ascending index
(what reading the elements back through `operator[]` yields). -/
def vals [Inhabited α] (st : vector_t α) : List α :=
  (List.range st.size).map fun i => readSlot st.buf i

/-- A sequence of single-argument `emplace_back` calls, one per list
element, accumulating the traces. -/
def emplace_seq [Inhabited α] : vector_t α → Nat → List α → vector_t α × Nat × List Ev
  | st, ctr, [] => (st, ctr, [])
  | st, ctr, v :: vs =>
    ((emplace_seq (emplace_back1 st v ctr).1 (emplace_back1 st v ctr).2.1 vs).1,
     (emplace_seq (emplace_back1 st v ctr).1 (emplace_back1 st v ctr).2.1 vs).2.1,
     (emplace_back1 st v ctr).2.2 ++
       (emplace_seq (emplace_back1 st v ctr).1 (emplace_back1 st v ctr).2.1 vs).2.2)

/-- Well-formed container state: the buffer has exactly `capacity` slots,
`size ≤ capacity`, a positive capacity means `_data` is non-null, and the
live slots are exactly `[0, size)` (invariants I1–I3 of the data model). -/
def wf [Inhabited α] (st : vector_t α) : Prop :=
  st.buf.length = st.capacity ∧ st.size ≤ st.capacity ∧
  (0 < st.capacity → st.data.isSome = true) ∧
  ∀ i, i < st.capacity → (((st.buf.getD i none).isSome = true) ↔ i < st.size)

instance instDecidableWf [Inhabited α] (st : vector_t α) : Decidable (wf st) := by
  unfold wf
  exact inferInstance

/-- The per-element interleaved relocation trace the specification
describes: for each `i` in `[0, k)`, a move construction into the new
buffer at slot `i` immediately followed by the destruction of the source
slot `i`.  Modelled from the spec, for comparison with the traces the
source emits. -/
def interleavedEvents (newId oldId : Option Nat) : Nat → List Ev
  | 0 => []
  | k + 1 => interleavedEvents newId oldId k ++ [Ev.conMove newId k, Ev.destroy oldId k]

/-- A concrete well-formed vector of size 2 and capacity 2 holding the
values 1 and 2 in buffer number 0. -/
def exVec2 : vector_t Nat := ⟨some 0, [some 1, some 2], 2, 2⟩

/-- A concrete well-formed vector of size 1 and capacity 1 holding the
value 5 in buffer number 0. -/
def exVec1 : vector_t Nat := ⟨some 0, [some 5], 1, 1⟩

/-- A concrete well-formed vector of size 2 and capacity 2 holding the
values 3 and 4 in buffer number 1. -/
def exVec2b : vector_t Nat := ⟨some 1, [some 3, some 4], 2, 2⟩

theorem countMove_conMoveEvents (id : Option Nat) (k : Nat) :
    countMove (conMoveEvents id k) = k := by
  induction k with
  | zero => rfl
  | succ n ih => simp [conMoveEvents, countMove, List.filter_append] at ih ⊢; omega

theorem countDestroy_conMoveEvents (id : Option Nat) (k : Nat) :
    countDestroy (conMoveEvents id k) = 0 := by
  induction k with
  | zero => rfl
  | succ n ih =>
    simp only [conMoveEvents, countDestroy, List.filter_append, List.length_append] at ih ⊢
    simp [List.filter_cons, ih]

theorem countDefault_conMoveEvents (id : Option Nat) (k : Nat) :
    countDefault (conMoveEvents id k) = 0 := by
  induction k with
  | zero => rfl
  | succ n ih =>
    simp only [conMoveEvents, countDefault, List.filter_append, List.length_append] at ih ⊢
    simp [List.filter_cons, ih]

theorem countCopy_conMoveEvents (id : Option Nat) (k : Nat) :
    countCopy (conMoveEvents id k) = 0 := by
  induction k with
  | zero => rfl
  | succ n ih =>
    simp only [conMoveEvents, countCopy, List.filter_append, List.length_append] at ih ⊢
    simp [List.filter_cons, ih]

theorem countMove_destroyEvents (id : Option Nat) (k : Nat) :
    countMove (destroyEvents id k) = 0 := by
  induction k with
  | zero => rfl
  | succ n ih =>
    simp only [destroyEvents, countMove, List.filter_append, List.length_append] at ih ⊢
    simp [List.filter_cons, ih]

theorem countDestroy_destroyEvents (id : Option Nat) (k : Nat) :
    countDestroy (destroyEvents id k) = k := by
  induction k with
  | zero => rfl
  | succ n ih => simp [destroyEvents, countDestroy, List.filter_append] at ih ⊢; omega

theorem countDefault_destroyEvents (id : Option Nat) (k : Nat) :
    countDefault (destroyEvents id k) = 0 := by
  induction k with
  | zero => rfl
  | succ n ih =>
    simp only [destroyEvents, countDefault, List.filter_append, List.length_append] at ih ⊢
    simp [List.filter_cons, ih]

theorem countCopy_destroyEvents (id : Option Nat) (k : Nat) :
    countCopy (destroyEvents id k) = 0 := by
  induction k with
  | zero => rfl
  | succ n ih =>
    simp only [destroyEvents, countCopy, List.filter_append, List.length_append] at ih ⊢
    simp [List.filter_cons, ih]

theorem countMove_conDefaultEvents (id : Option Nat) (a m : Nat) :
    countMove (conDefaultEvents id a m) = 0 := by
  induction m with
  | zero => rfl
  | succ n ih =>
    simp only [conDefaultEvents, countMove, List.filter_append, List.length_append] at ih ⊢
    simp [List.filter_cons, ih]

theorem countDestroy_conDefaultEvents (id : Option Nat) (a m : Nat) :
    countDestroy (conDefaultEvents id a m) = 0 := by
  induction m with
  | zero => rfl
  | succ n ih =>
    simp only [conDefaultEvents, countDestroy, List.filter_append, List.length_append] at ih ⊢
    simp [List.filter_cons, ih]

theorem countDefault_conDefaultEvents (id : Option Nat) (a m : Nat) :
    countDefault (conDefaultEvents id a m) = m := by
  induction m with
  | zero => rfl
  | succ n ih => simp [conDefaultEvents, countDefault, List.filter_append] at ih ⊢; omega

theorem countCopy_conDefaultEvents (id : Option Nat) (a m : Nat) :
    countCopy (conDefaultEvents id a m) = 0 := by
  induction m with
  | zero => rfl
  | succ n ih =>
    simp only [conDefaultEvents, countCopy, List.filter_append, List.length_append] at ih ⊢
    simp [List.filter_cons, ih]

theorem length_conDefaultEvents (id : Option Nat) (a m : Nat) :
    (conDefaultEvents id a m).length = m := by
  induction m with
  | zero => rfl
  | succ n ih => simp [conDefaultEvents] at ih ⊢; omega

theorem countDefault_append (t1 t2 : List Ev) :
    countDefault (t1 ++ t2) = countDefault t1 + countDefault t2 := by
  simp [countDefault, List.filter_append]

theorem countCopy_append (t1 t2 : List Ev) :
    countCopy (t1 ++ t2) = countCopy t1 + countCopy t2 := by
  simp [countCopy, List.filter_append]

theorem countMove_append (t1 t2 : List Ev) :
    countMove (t1 ++ t2) = countMove t1 + countMove t2 := by
  simp [countMove, List.filter_append]

theorem countDestroy_append (t1 t2 : List Ev) :
    countDestroy (t1 ++ t2) = countDestroy t1 + countDestroy t2 := by
  simp [countDestroy, List.filter_append]

/-- Claim C1.  The copy operations do perform exactly `S` copy
constructions and zero assignments, but the destination's `_size` is
never set: copy-constructing from a source of size 1 leaves the
destination with `size() = 0` (not 1), and copy-assigning a size-1 source
into a destination of prior size 2 leaves the destination with
`size() = 2` (not 1).  This evaluates the code at those failing inputs. -/
theorem C1_copy_ops_leave_size_unset :
    (copy_ctor exVec1 1).1.size = 0 ∧
    countCopy (copy_ctor exVec1 1).2.2 = 1 ∧
    countAssign (copy_ctor exVec1 1).2.2 = 0 ∧
    (copy_assign exVec2 exVec1 2).1.size = 2 ∧
    countCopy (copy_assign exVec2 exVec1 2).2.2 = 1 ∧
    countAssign (copy_assign exVec2 exVec1 2).2.2 = 0 := by
  decide

/-- Claim C2.  Shrinking `resize` runs `destroy(_data, _data + _size)`,
destroying ALL `S` live elements instead of only the `S - s` elements in
slots `[s, S)`: on a vector of size 2, `resize(1)` emits 2 destructions
(slots 0 and 1) and leaves slot 0 holding no live value, even though
`size` and `capacity` are both set to 1 as the claim states. -/
theorem C2_shrink_destroys_all_elements :
    countDestroy (resize exVec2 1 1).2.2 = 2 ∧
    (resize exVec2 1 1).2.2 = [Ev.destroy (some 0) 0, Ev.destroy (some 0) 1] ∧
    (resize exVec2 1 1).1.size = 1 ∧
    (resize exVec2 1 1).1.capacity = 1 ∧
    (resize exVec2 1 1).1.buf.getD 0 none = none := by
  decide

/-- Claim C3.  Move construction copies only `_data`: the destination's
`size`/`capacity` are left uninitialized (here modelled with junk values
99/98, which the result exposes) and the source keeps its old
`size = 1` and `capacity = 1` instead of being reset to 0, so destroying
the moved-from source emits 1 destruction (through a null pointer)
rather than none.  Move assignment additionally `delete`s the
destination's buffer (1 destruction, not 0) and also leaves both
`size`/`capacity` fields untransferred. -/
theorem C3_move_ops_do_not_transfer_bookkeeping :
    (move_ctor exVec1 99 98).1.size = 99 ∧
    (move_ctor exVec1 99 98).1.capacity = 98 ∧
    (move_ctor exVec1 99 98).2.1.size = 1 ∧
    (move_ctor exVec1 99 98).2.1.capacity = 1 ∧
    (dtor (move_ctor exVec1 99 98).2.1).length = 1 ∧
    (move_assign exVec2b exVec1).1.size = 2 ∧
    (move_assign exVec2b exVec1).1.capacity = 2 ∧
    countDestroy (move_assign exVec2b exVec1).2.2 = 1 ∧
    (move_assign exVec2b exVec1).2.1.size = 1 := by
  decide

/-- Claim C4.  The lifetime invariants do not hold after public calls:
(a) `emplace_back()` on an empty vector constructs slot 0 of the fresh
buffer (buffer id 0) twice with no intervening destruction, violating I4;
(b) copy construction from a size-1 source yields a state with
`size = 0`, `capacity = 1` whose slot 0 (inside `[size, capacity)`)
holds a live value, violating I2. -/
theorem C4_lifetime_invariants_violated :
    (emplace_back0 (vector_t.empty : vector_t Nat) 0).2.2 =
      [Ev.conDefault (some 0) 0, Ev.conDefault (some 0) 0] ∧
    (copy_ctor exVec1 1).1.size = 0 ∧
    (copy_ctor exVec1 1).1.capacity = 1 ∧
    ((copy_ctor exVec1 1).1.buf.getD 0 none).isSome = true := by
  decide

/-- Claim C5, counterexample.  Relocating the 2 live elements of a
vector during `reserve(3)` emits both move constructions first and both
destructions after (batched), not the per-element construct-then-destroy
interleaving the claim describes: the emitted trace differs from
`interleavedEvents` at this input. -/
theorem C5_relocation_interleaving_cex :
    (reserve exVec2 3 1).2.2 ≠ interleavedEvents (some 1) (some 0) 2 ∧
    (reserve exVec2 3 1).2.2 =
      [Ev.conMove (some 1) 0, Ev.conMove (some 1) 1,
       Ev.destroy (some 0) 0, Ev.destroy (some 0) 1] := by
  decide

/-- Claim C5, amended.  Whenever the `k = size` live elements are
relocated to a new buffer (during `reserve`, or during a growing
`resize`), the trace consists of all `k` move constructions into the new
buffer at slots `0..k-1` in ascending order, followed by all `k`
destructions of the source slots `0..k-1` in ascending order (batched,
not interleaved per element). -/
theorem C5_relocation_is_batched [Inhabited α] (st : vector_t α) (o c n ctr : Nat)
    (hd : st.data = some o) (hs : 0 < st.size) (hn : st.size < n) :
    (reserve st c ctr).2.2 =
      conMoveEvents (some ctr) st.size ++ destroyEvents (some o) st.size ∧
    (resize st n ctr).2.2 =
      conMoveEvents (some ctr) st.size ++ destroyEvents (some o) st.size
        ++ conDefaultEvents (some ctr) st.size (n - st.size) := by
  constructor
  · simp [reserve, hd, hs]
  · have hne : ¬ st.size = n := by omega
    have h0 : ¬ st.size = 0 := by omega
    simp [resize, hne, h0, resizeTail, hs, hn, hd]

theorem C5_relocation_is_batched_witness :
    exVec2.data = some 0 ∧ 0 < exVec2.size ∧ exVec2.size < 3 ∧
    ((reserve exVec2 3 1).2.2 =
      conMoveEvents (some 1) exVec2.size ++ destroyEvents (some 0) exVec2.size ∧
     (resize exVec2 3 1).2.2 =
      conMoveEvents (some 1) exVec2.size ++ destroyEvents (some 0) exVec2.size
        ++ conDefaultEvents (some 1) exVec2.size (3 - exVec2.size)) :=
  ⟨by decide, by decide, by decide,
   C5_relocation_is_batched exVec2 0 3 3 1 (by decide) (by decide) (by decide)⟩

/-- Claim C6.  On a vector whose capacity was 0, `emplace_back` grows the
capacity to 16 and increments `size` by 1 as claimed, but it constructs
the end slot twice, not once: the zero-argument call performs 2 default
constructions at slot 0 of the new buffer, and the one-argument call
performs 1 default construction plus 1 forwarded construction at the
same slot.  (With capacity 1024 already reserved, a single call does
construct exactly once.) -/
theorem C6_emplace_back_double_constructs :
    countDefault (emplace_back0 (vector_t.empty : vector_t Nat) 0).2.2 = 2 ∧
    (emplace_back0 (vector_t.empty : vector_t Nat) 0).1.size = 1 ∧
    (emplace_back0 (vector_t.empty : vector_t Nat) 0).1.capacity = 16 ∧
    countDefault (emplace_back1 (vector_t.empty : vector_t Nat) 8 0).2.2 = 1 ∧
    countArg (emplace_back1 (vector_t.empty : vector_t Nat) 8 0).2.2 = 1 ∧
    (emplace_back1 (vector_t.empty : vector_t Nat) 8 0).1.size = 1 ∧
    countDefault (emplace_back0 (⟨some 0, List.replicate 1024 none, 0, 1024⟩ : vector_t Nat) 1).2.2 = 1 := by
  decide

/-- Claim C7.  `reserve(c)` with `c ≥ size` on a vector of size `S`
whose data pointer is non-null when `S > 0` emits exactly `S` move
constructions and `S` destructions, zero default and zero copy
constructions, sets `capacity` to exactly `c`, leaves `size` unchanged,
and on an empty vector emits no events at all. -/
theorem C7_reserve_lifetime_counts [Inhabited α] (st : vector_t α) (c ctr : Nat)
    (hc : st.size ≤ c) (hd : 0 < st.size → st.data.isSome = true) :
    countMove (reserve st c ctr).2.2 = st.size ∧
    countDestroy (reserve st c ctr).2.2 = st.size ∧
    countDefault (reserve st c ctr).2.2 = 0 ∧
    countCopy (reserve st c ctr).2.2 = 0 ∧
    (reserve st c ctr).1.capacity = c ∧
    (reserve st c ctr).1.size = st.size ∧
    (st.size = 0 → (reserve st c ctr).2.2 = []) := by
  rcases h : st.data with _ | old
  · have hs : st.size = 0 := by
      by_contra hne
      have hpos : 0 < st.size := Nat.pos_of_ne_zero hne
      have := hd hpos
      rw [h] at this
      simp at this
    simp [reserve, h, hs, countMove, countDestroy, countDefault, countCopy]
  · by_cases hs : 0 < st.size
    · have hs0 : ¬ st.size = 0 := by omega
      simp [reserve, h, hs, hs0, countMove_append, countDestroy_append,
        countDefault_append, countCopy_append, countMove_conMoveEvents,
        countMove_destroyEvents, countDestroy_conMoveEvents,
        countDestroy_destroyEvents, countDefault_conMoveEvents,
        countDefault_destroyEvents, countCopy_conMoveEvents,
        countCopy_destroyEvents]
    · have hs0 : st.size = 0 := by omega
      simp [reserve, h, hs, hs0, countMove, countDestroy, countDefault, countCopy]

theorem C7_reserve_lifetime_counts_witness :
    exVec2.size ≤ 5 ∧ (0 < exVec2.size → exVec2.data.isSome = true) ∧
    (countMove (reserve exVec2 5 3).2.2 = exVec2.size ∧
     countDestroy (reserve exVec2 5 3).2.2 = exVec2.size ∧
     countDefault (reserve exVec2 5 3).2.2 = 0 ∧
     countCopy (reserve exVec2 5 3).2.2 = 0 ∧
     (reserve exVec2 5 3).1.capacity = 5 ∧
     (reserve exVec2 5 3).1.size = exVec2.size ∧
     (exVec2.size = 0 → (reserve exVec2 5 3).2.2 = [])) :=
  ⟨by decide, by decide,
   C7_reserve_lifetime_counts exVec2 5 3 (by decide) (by decide)⟩

/-- Claim C8.  Growing `resize` from size `S` to `S + k` (`k > 0`) emits
exactly `k` default constructions, `S` move constructions and `S`
destructions, and sets both `size` and `capacity` to exactly `S + k`;
and `resize` to the current size emits no events and changes nothing. -/
theorem C8_resize_grow_lifetime_counts [Inhabited α] (st : vector_t α)
    (k ctr : Nat) (hk : 0 < k) :
    countDefault (resize st (st.size + k) ctr).2.2 = k ∧
    countMove (resize st (st.size + k) ctr).2.2 = st.size ∧
    countDestroy (resize st (st.size + k) ctr).2.2 = st.size ∧
    (resize st (st.size + k) ctr).1.size = st.size + k ∧
    (resize st (st.size + k) ctr).1.capacity = st.size + k ∧
    resize st st.size ctr = (st, ctr, []) := by
  have hne : ¬ st.size = st.size + k := by omega
  by_cases h0 : st.size = 0
  · have hlt : ¬ st.size + k < st.size + k := by omega
    have hk0 : ¬ (0 : Nat) = k := by omega
    simp [resize, hne, h0, resizeTail, hk, hlt, hk0, countDefault_conDefaultEvents,
      countMove_conDefaultEvents, countDestroy_conDefaultEvents]
  · have hpos : 0 < st.size := Nat.pos_of_ne_zero h0
    have hlt : st.size < st.size + k := by omega
    simp [resize, hne, h0, resizeTail, hpos, hlt, countDefault_append,
      countMove_append, countDestroy_append, countDefault_conMoveEvents,
      countDefault_destroyEvents, countDefault_conDefaultEvents,
      countMove_conMoveEvents, countMove_destroyEvents,
      countMove_conDefaultEvents, countDestroy_conMoveEvents,
      countDestroy_destroyEvents, countDestroy_conDefaultEvents]

theorem C8_resize_grow_lifetime_counts_witness :
    (0 : Nat) < 3 ∧
    (countDefault (resize exVec2 (exVec2.size + 3) 1).2.2 = 3 ∧
     countMove (resize exVec2 (exVec2.size + 3) 1).2.2 = exVec2.size ∧
     countDestroy (resize exVec2 (exVec2.size + 3) 1).2.2 = exVec2.size ∧
     (resize exVec2 (exVec2.size + 3) 1).1.size = exVec2.size + 3 ∧
     (resize exVec2 (exVec2.size + 3) 1).1.capacity = exVec2.size + 3 ∧
     resize exVec2 exVec2.size 1 = (exVec2, 1, [])) :=
  ⟨by decide, C8_resize_grow_lifetime_counts exVec2 3 1 (by decide)⟩

/-- Claim C10.  The sized constructor `vector_t(N)` delegates to the
default constructor and then calls `resize(N)`, so it produces literally
the same state, allocation counter and trace as default-construction
followed by `resize(N)`; that common trace consists of exactly `N`
default constructions and nothing else, and the resulting size and
capacity are both `N`. -/
theorem C10_sized_ctor_equals_default_then_resize [Inhabited α] (n ctr : Nat) :
    mk_sized (α := α) n ctr = resize vector_t.empty n ctr ∧
    (mk_sized (α := α) n ctr).1.size = n ∧
    (mk_sized (α := α) n ctr).1.capacity = n ∧
    countDefault (mk_sized (α := α) n ctr).2.2 = n ∧
    (mk_sized (α := α) n ctr).2.2.length = n := by
  refine ⟨rfl, ?_⟩
  by_cases hn : n = 0
  · subst hn
    simp [mk_sized, resize, vector_t.empty, countDefault]
  · have hne : ¬ (vector_t.empty : vector_t α).size = n := by
      simp [vector_t.empty]
      omega
    have hpos : 0 < n := Nat.pos_of_ne_zero hn
    have hlt : ¬ n < n := by omega
    have hn0 : ¬ (0 : Nat) = n := by omega
    simp [mk_sized, resize, vector_t.empty, resizeTail, hne, hpos, hlt, hn0,
      countDefault_conDefaultEvents, length_conDefaultEvents]

theorem C10_sized_ctor_equals_default_then_resize_witness :
    mk_sized (α := Nat) 32 0 = resize vector_t.empty 32 0 ∧
    (mk_sized (α := Nat) 32 0).1.size = 32 ∧
    (mk_sized (α := Nat) 32 0).1.capacity = 32 ∧
    countDefault (mk_sized (α := Nat) 32 0).2.2 = 32 ∧
    (mk_sized (α := Nat) 32 0).2.2.length = 32 :=
  C10_sized_ctor_equals_default_then_resize 32 0

theorem getD_set_none {β : Type} (l : List (Option β)) (n j : Nat) (a : Option β) :
    (l.set n a).getD j none = if n = j ∧ n < l.length then a else l.getD j none := by
  simp only [List.getD_eq_getElem?_getD, List.getElem?_set]
  by_cases h1 : n = j
  · subst h1
    by_cases h2 : n < l.length
    · simp [h2]
    · have hnone : l[n]? = none := List.getElem?_eq_none (by omega)
      simp [h2, hnone]
  · simp [h1]

theorem getD_replicate_none (n j : Nat) :
    (List.replicate n (none : Option α)).getD j none = none := by
  simp only [List.getD_eq_getElem?_getD, List.getElem?_replicate]
  by_cases h : j < n <;> simp [h]

theorem moveLoop_length [Inhabited α] (src dst : Slots α) (k : Nat) :
    (moveLoop src dst k).length = dst.length := by
  induction k with
  | zero => rfl
  | succ n ih => simp [moveLoop, List.length_set, ih]

theorem moveLoop_getD [Inhabited α] (src dst : Slots α) (k : Nat)
    (hk : k ≤ dst.length) (j : Nat) :
    (moveLoop src dst k).getD j none =
      if j < k then some (readSlot src j) else dst.getD j none := by
  induction k with
  | zero => simp [moveLoop]
  | succ n ih =>
    have hn : n ≤ dst.length := by omega
    rw [moveLoop, getD_set_none, moveLoop_length, ih hn]
    by_cases h1 : n = j
    · subst h1
      rw [if_pos ⟨rfl, by omega⟩, if_pos (by omega)]
    · rw [if_neg (fun hq => h1 hq.1)]
      by_cases h2 : j < n
      · rw [if_pos h2, if_pos (by omega)]
      · rw [if_neg h2, if_neg (by omega)]

theorem vals_of_set_end [Inhabited α] (b : Slots α) (n : Nat) (v : α)
    (hn : n < b.length) :
    (List.range (n + 1)).map (fun i => readSlot (b.set n (some v)) i) =
      ((List.range n).map fun i => readSlot b i) ++ [v] := by
  rw [List.range_succ, List.map_append]
  congr 1
  · apply List.map_congr_left
    intro i hi
    have hilt : i < n := List.mem_range.mp hi
    simp only [readSlot]
    rw [getD_set_none, if_neg (by omega)]
  · simp only [List.map_cons, List.map_nil, readSlot]
    rw [getD_set_none, if_pos ⟨rfl, hn⟩]
    simp

theorem emplace_back1_eq_cap0 [Inhabited α] (st : vector_t α) (v : α) (ctr : Nat)
    (hcap : st.capacity = 0) (hs0 : st.size = 0) :
    emplace_back1 st v ctr =
      (⟨some ctr, (List.replicate 16 (none : Option α)).set 0 (some v), 1, 16⟩,
       ctr + 1, [Ev.conDefault (some ctr) 0, Ev.conArg (some ctr) 0]) := by
  obtain ⟨d, b, s, c⟩ := st
  simp only at hcap hs0
  subst hcap
  subst hs0
  rcases d with _ | o
  · simp [emplace_back1, reserve, construct_default_at_end, construct_arg_at_end,
      List.set_set]
  · simp [emplace_back1, reserve, construct_default_at_end, construct_arg_at_end,
      List.set_set]

theorem emplace_back1_eq_room [Inhabited α] (st : vector_t α) (v : α) (ctr : Nat)
    (hcap : ¬ st.capacity = 0) (hlt : st.size < st.capacity) :
    emplace_back1 st v ctr =
      (⟨st.data, st.buf.set st.size (some v), st.size + 1, st.capacity⟩,
       ctr, [Ev.conArg st.data st.size]) := by
  obtain ⟨d, b, s, c⟩ := st
  simp only at hcap hlt
  have hne : ¬ s = c := by omega
  simp [emplace_back1, hcap, hlt, hne, construct_arg_at_end]

theorem emplace_back1_eq_full [Inhabited α] (st : vector_t α) (v : α) (ctr o : Nat)
    (hd : st.data = some o) (heq : st.size = st.capacity) (hpos : 0 < st.capacity) :
    emplace_back1 st v ctr =
      (⟨some ctr,
        (moveLoop st.buf (List.replicate (st.capacity * 2) none) st.size).set
          st.size (some v),
        st.size + 1, st.capacity * 2⟩,
       ctr + 1,
       conMoveEvents (some ctr) st.size ++ destroyEvents (some o) st.size
         ++ [Ev.conArg (some ctr) st.size]) := by
  obtain ⟨d, b, s, c⟩ := st
  simp only at hd heq hpos
  subst hd
  have hcap : ¬ c = 0 := by omega
  have hnlt : ¬ s < c := by omega
  have hspos : 0 < s := by omega
  simp [emplace_back1, reserve, hcap, hnlt, hspos, heq, hpos,
    construct_arg_at_end, prependTrace]

theorem emplace_back1_step [Inhabited α] (st : vector_t α) (v : α) (ctr : Nat)
    (h : wf st) :
    wf (emplace_back1 st v ctr).1 ∧
    (emplace_back1 st v ctr).1.size = st.size + 1 ∧
    vals (emplace_back1 st v ctr).1 = vals st ++ [v] := by
  obtain ⟨hlen, hsz, hds, hlive⟩ := h
  by_cases hcap : st.capacity = 0
  · have hs0 : st.size = 0 := by omega
    rw [emplace_back1_eq_cap0 st v ctr hcap hs0]
    refine ⟨⟨by simp, by simp, by simp, ?_⟩, by simp [hs0], ?_⟩
    · intro i hi
      simp only at hi ⊢
      rw [getD_set_none]
      by_cases h0 : i = 0
      · subst h0
        simp
      · rw [if_neg (by omega), getD_replicate_none]
        simp
        omega
    · simp only [vals, hs0]
      simp [readSlot, getD_set_none, List.range_succ]
  · by_cases hlt : st.size < st.capacity
    · rw [emplace_back1_eq_room st v ctr hcap hlt]
      refine ⟨⟨by simp [hlen], by simp; omega, by simpa using hds, ?_⟩,
        by simp, ?_⟩
      · intro i hi
        simp only at hi ⊢
        rw [getD_set_none]
        by_cases h0 : st.size = i
        · subst h0
          rw [if_pos ⟨rfl, by omega⟩]
          simp
        · rw [if_neg (by omega)]
          have := hlive i hi
          rw [this]
          omega
      · simp only [vals]
        exact vals_of_set_end st.buf st.size v (by omega)
    · have heq : st.size = st.capacity := by omega
      have hpos : 0 < st.capacity := by omega
      obtain ⟨o, ho⟩ := Option.isSome_iff_exists.mp (hds hpos)
      rw [emplace_back1_eq_full st v ctr o ho heq hpos]
      have hlen2 : (List.replicate (st.capacity * 2) (none : Option α)).length =
          st.capacity * 2 := by simp
      have hml : (moveLoop st.buf (List.replicate (st.capacity * 2) none)
          st.size).length = st.capacity * 2 := by
        rw [moveLoop_length, hlen2]
      refine ⟨⟨by simp [hml], by simp; omega, by simp, ?_⟩, by simp, ?_⟩
      · intro i hi
        simp only at hi ⊢
        rw [getD_set_none]
        by_cases h0 : st.size = i
        · subst h0
          rw [if_pos ⟨rfl, by omega⟩]
          simp
        · rw [if_neg (by omega), moveLoop_getD st.buf _ st.size (by omega) i,
            getD_replicate_none]
          by_cases h2 : i < st.size
          · simp [h2]
            have := hlive i (by omega)
            have h3 : (st.buf.getD i none).isSome = true := by
              rw [this]
              omega
            obtain ⟨w, hw⟩ := Option.isSome_iff_exists.mp h3
            simp [hw]
            omega
          · simp [h2]
            omega
      · simp only [vals]
        rw [vals_of_set_end _ st.size v (by omega)]
        congr 1
        apply List.map_congr_left
        intro i hi
        have hilt : i < st.size := List.mem_range.mp hi
        simp only [readSlot]
        rw [moveLoop_getD st.buf (List.replicate (st.capacity * 2) none) st.size
            (by rw [List.length_replicate]; omega) i, if_pos hilt]
        simp [readSlot]

/-- Claim C9.  Starting from any well-formed container state, a sequence
of `emplace_back` calls (one value each) leaves `size()` equal to the
starting size plus the number of calls, and reading the elements back by
index yields the starting contents followed by the appended values in
insertion order (FIFO), earlier values surviving the intervening
capacity growths. -/
theorem C9_emplace_back_fifo [Inhabited α] (vs : List α) (st : vector_t α)
    (ctr : Nat) (h : wf st) :
    (emplace_seq st ctr vs).1.size = st.size + vs.length ∧
    vals (emplace_seq st ctr vs).1 = vals st ++ vs := by
  induction vs generalizing st ctr with
  | nil => simp [emplace_seq]
  | cons v vs ih =>
    obtain ⟨hwf, hsz, hvals⟩ := emplace_back1_step st v ctr h
    obtain ⟨ih1, ih2⟩ := ih (emplace_back1 st v ctr).1 (emplace_back1 st v ctr).2.1 hwf
    constructor
    · simp only [emplace_seq]
      simp [ih1, hsz]
      omega
    · simp only [emplace_seq]
      simp [ih2, hvals]

theorem C9_emplace_back_fifo_witness :
    wf (vector_t.empty : vector_t Nat) ∧
    ((emplace_seq (vector_t.empty : vector_t Nat) 0 [5, 7, 9]).1.size =
       (vector_t.empty : vector_t Nat).size + [5, 7, 9].length ∧
     vals (emplace_seq (vector_t.empty : vector_t Nat) 0 [5, 7, 9]).1 =
       vals (vector_t.empty : vector_t Nat) ++ [5, 7, 9]) :=
  ⟨by decide, C9_emplace_back_fifo [5, 7, 9] vector_t.empty 0 (by decide)⟩
